import Mathlib

/-!
Verification of the CES/Solow maximum-likelihood estimator
(`sandbox.py` of the penn-world-tables repository).

The numeric code operates on real scalars; we embed it over `ℝ`, with
Python's `**` on positive reals translated as `Real.rpow`.  Fallible
steps (panel lookups that can raise `KeyError`, the scipy normal
density that yields NaN for a non-positive scale) are translated as
`Option`-valued functions, `none` standing for the failure.
-/

open Real

namespace Sandbox

noncomputable section

/-- The elasticity tolerance `EPS = 1e-6` of `sandbox.py`. -/
def EPS : ℝ := 1 / 1000000

/-- `_ces_marginal_product_capital(capital, rho, omega)` from `sandbox.py`:
marginal product of capital per effective worker. -/
def ces_marginal_product_capital (capital rho omega : ℝ) : ℝ :=
  if |rho| < EPS then
    omega * capital ^ (omega - 1)
  else
    omega * capital ^ (rho - 1) * (omega * capital ^ rho + (1 - omega)) ^ ((1 - rho) / rho)

/-- `_ces_output(capital, rho, omega)` from `sandbox.py`:
the CES production function per effective worker. -/
def ces_output (capital rho omega : ℝ) : ℝ :=
  if |rho| < EPS then
    capital ^ omega
  else
    (omega * capital ^ rho + (1 - omega)) ^ (1 / rho)

/-- `solow_model(capital, time, n, g, s, delta, rho, omega)` from `sandbox.py`:
equation of motion for capital per effective worker.  The `time` argument is
accepted and unused, exactly as in the source. -/
def solow_model (capital _time n g s delta rho omega : ℝ) : ℝ :=
  s * ces_output capital rho omega - (n + g + delta) * capital

/-- `solow_jacobian(capital, time, n, g, s, delta, rho, omega)` from
`sandbox.py`: derivative of the equation of motion with respect to capital. -/
def solow_jacobian (capital _time n g s delta rho omega : ℝ) : ℝ :=
  s * ces_marginal_product_capital capital rho omega - (n + g + delta)

/-- `_ces_technology(capital, labor, output, rho, omega)` from `sandbox.py`:
technology as a residual of the CES production function.  Note the source's
second branch adds `(omega/(1-omega)) * capital_labor**rho`; we transcribe it
verbatim. -/
def ces_technology (capital labor output rho omega : ℝ) : ℝ :=
  let output_per_worker := output / labor
  let capital_labor := capital / labor
  if |rho| < EPS then
    (output_per_worker / capital_labor ^ omega) ^ (1 / (1 - omega))
  else
    ((1 / (1 - omega)) * output_per_worker ^ rho +
      (omega / (1 - omega)) * capital_labor ^ rho) ^ (1 / rho)

/-- `_predicted_labor_share(capital, rho, omega)` from `sandbox.py`:
model-predicted share of income going to labor.  This function gates on
`|rho| <= EPS` (the others use strict `<`). -/
def predicted_labor_share (capital rho omega : ℝ) : ℝ :=
  if |rho| ≤ EPS then
    omega
  else
    (1 - omega) / (omega * capital ^ rho + (1 - omega))

/-- `_residual(capital, labor_share, rho, omega)` from `sandbox.py`:
difference between actual and model-predicted labor share. -/
def residual (capital labor_share rho omega : ℝ) : ℝ :=
  labor_share - predicted_labor_share capital rho omega

/-- The scipy normal density `stats.norm(0, sigma).pdf(x)` for a valid
scale `sigma > 0`. -/
def normPdf (sigma x : ℝ) : ℝ :=
  Real.exp (-(x ^ 2) / (2 * sigma ^ 2)) / (sigma * Real.sqrt (2 * Real.pi))

/-- `stats.norm(0, sigma).pdf(x)` as called by `_individual_ll`: scipy
treats a scale `sigma <= 0` as invalid and yields NaN instead of raising;
`none` models that NaN. -/
def norm_pdf_checked (sigma x : ℝ) : Option ℝ :=
  if 0 < sigma then some (normPdf sigma x) else none

/-- The value of `_individual_ll(capital, labor_share, rho, sigma, omega)`
on the valid-scale path: the log of the Gaussian density at the residual. -/
def individual_ll_val (capital labor_share rho sigma omega : ℝ) : ℝ :=
  Real.log (normPdf sigma (residual capital labor_share rho omega))

/-- `_individual_ll(capital, labor_share, rho, sigma, omega)` from
`sandbox.py`, including the scipy scale check: `none` is the silently
propagated NaN when `sigma <= 0`. -/
def individual_ll (capital labor_share rho sigma omega : ℝ) : Option ℝ :=
  (norm_pdf_checked sigma (residual capital labor_share rho omega)).map Real.log

/-- The 7-entry parameter vector of `sandbox.py`, in the positional order
`g, n, s, delta, rho, sigma, omega` used by `objective`'s unpacking. -/
structure ParameterVector where
  g : ℝ
  n : ℝ
  s : ℝ
  delta : ℝ
  rho : ℝ
  sigma : ℝ
  omega : ℝ

/-- The right-hand side `objective` hands to `integrate.odeint`: it passes
`args=(g, n, s, delta, rho, omega)` positionally into
`solow_model(capital, time, n, g, s, delta, rho, omega)`, so the vector's
`g` lands on the parameter named `n` and vice versa. -/
def objective_rhs (p : ParameterVector) (capital t : ℝ) : ℝ :=
  solow_model capital t p.g p.n p.s p.delta p.rho p.omega

/-- The Jacobian `objective` hands to `integrate.odeint` via `Dfun`, with
the same positional `args` binding as `objective_rhs`. -/
def objective_jac (p : ParameterVector) (capital t : ℝ) : ℝ :=
  solow_jacobian capital t p.g p.n p.s p.delta p.rho p.omega

/-- The likelihood aggregation of `objective(params, ctry, start, end)` from
`sandbox.py`, as a function of the capital trajectory `ks` produced by the
integrator and the observed labor-share series `ls`:
`-np.sum(_individual_ll(traj[:, 0], labor_share, rho, sigma, omega))`.
The scipy scale check makes it `none` when `sigma <= 0`. -/
def objective_of_traj (p : ParameterVector) (ks ls : List ℝ) : Option ℝ :=
  if 0 < p.sigma then
    some (-((ks.zip ls).map
      (fun pt => individual_ll_val pt.1 pt.2 p.rho p.sigma p.omega)).sum)
  else
    none

/-- A panel observation for one country and one year, with the columns
`_initial_condition` and `objective` read: `rkna`, `emp`, `rgdpna`, `labsh`. -/
structure Obs where
  rkna : ℝ
  emp : ℝ
  rgdpna : ℝ
  labsh : ℝ

/-- The Penn World Tables panel as read by the code: country and year to an
optional observation; `none` is a missing observation, on which the pandas
lookup `pwt_data.major_xs(ctry)[col][date]` raises a lookup error. -/
def Panel : Type := String → Nat → Option Obs

/-- `_initial_condition(ctry, start, rho, omega)` from `sandbox.py`: reads
`rkna`, `emp`, `rgdpna` at `start`, computes the implied technology, and
returns `initial_capital / (initial_technology * initial_labor)`.  A missing
observation propagates as `none`. -/
def initial_condition (panel : Panel) (ctry : String) (start : Nat)
    (rho omega : ℝ) : Option ℝ :=
  (panel ctry start).map (fun o =>
    o.rkna / (ces_technology o.rkna o.emp o.rgdpna rho omega * o.emp))

/-- `objective(params, ctry, start, end)` from `sandbox.py`, with the call
to `integrate.odeint` abstracted as a function `integ` from the initial
condition to the capital trajectory over the time grid, and the grid of
observation years passed explicitly.  The labor-share series is read from
the panel; the initial condition's failure propagates. -/
def objective_model (panel : Panel) (integ : ℝ → List ℝ) (ctry : String)
    (start : Nat) (grid : List Nat) (p : ParameterVector) : Option ℝ :=
  (initial_condition panel ctry start p.rho p.omega).bind (fun k0 =>
    let ls := grid.filterMap (fun y => (panel ctry y).map Obs.labsh)
    objective_of_traj p (integ k0) ls)

/-- The labor-share formula as worded in the spec: `omega` when
`|rho| ≤ ε`, otherwise `(1-omega)/(omega·k^rho+(1-omega))`. -/
def labor_share_formula_spec (k rho omega : ℝ) : ℝ :=
  if |rho| ≤ EPS then omega else (1 - omega) / (omega * k ^ rho + (1 - omega))

/-- The Gaussian density with mean `0` and standard deviation `sigma`,
as worded in the spec's likelihood description. -/
def gaussian_density (sigma x : ℝ) : ℝ :=
  (1 / (sigma * Real.sqrt (2 * Real.pi))) * Real.exp (-(x ^ 2) / (2 * sigma ^ 2))

/-- Helper: the implied technology is strictly positive on positive data. -/
lemma ces_technology_pos_aux (c l y rho omega : ℝ) (hc : 0 < c) (hl : 0 < l)
    (hy : 0 < y) (h0 : 0 < omega) (h1 : omega < 1) :
    0 < ces_technology c l y rho omega := by
  have hyl : 0 < y / l := div_pos hy hl
  have hcl : 0 < c / l := div_pos hc hl
  have h1w : 0 < 1 - omega := by linarith
  unfold ces_technology
  by_cases h : |rho| < EPS
  · rw [if_pos h]
    exact Real.rpow_pos_of_pos (div_pos hyl (Real.rpow_pos_of_pos hcl omega)) _
  · rw [if_neg h]
    have ht1 : 0 < (1 / (1 - omega)) * (y / l) ^ rho :=
      mul_pos (by positivity) (Real.rpow_pos_of_pos hyl rho)
    have ht2 : 0 < (omega / (1 - omega)) * (c / l) ^ rho :=
      mul_pos (by positivity) (Real.rpow_pos_of_pos hcl rho)
    exact Real.rpow_pos_of_pos (by linarith) _

/-- Claim C2: the right-hand side and Jacobian that `objective` hands to
`integrate.odeint` realize the spec's equation of motion
`dk/dt = s·output(k,rho,omega) − (n+g+delta)·k` and its derivative
`s·marginal_product_of_capital(k,rho,omega) − (n+g+delta)`, with `g, n, s,
delta, rho, omega` taken from the parameter vector's named positions (the
positional swap of `g` and `n` in the call is absorbed by the symmetry of
`n + g + delta`). -/
theorem objective_ode_matches_spec (p : ParameterVector) (k t : ℝ) :
    objective_rhs p k t =
      p.s * ces_output k p.rho p.omega - (p.n + p.g + p.delta) * k ∧
    objective_jac p k t =
      p.s * ces_marginal_product_capital k p.rho p.omega - (p.n + p.g + p.delta) := by
  constructor
  · unfold objective_rhs solow_model; ring
  · unfold objective_jac solow_jacobian; ring

/-- Claim C5: `_predicted_labor_share(k, rho, omega)` returns `omega` when
`|rho| ≤ EPS`, and `(1 − omega) / (omega·k^rho + (1 − omega))` otherwise,
for every real `k`, `rho`, `omega` (in particular for `k > 0`,
`omega ∈ (0,1)`). -/
theorem predicted_labor_share_matches_spec (k rho omega : ℝ) :
    predicted_labor_share k rho omega = labor_share_formula_spec k rho omega := rfl

/-- Claim C6: for every `k > 0` and `omega ∈ (0,1)` and every real `rho`,
`_predicted_labor_share(k, rho, omega)` lies strictly between `0` and `1`. -/
theorem predicted_labor_share_in_unit_interval (k rho omega : ℝ) (hk : 0 < k)
    (h0 : 0 < omega) (h1 : omega < 1) :
    0 < predicted_labor_share k rho omega ∧ predicted_labor_share k rho omega < 1 := by
  unfold predicted_labor_share
  by_cases h : |rho| ≤ EPS
  · rw [if_pos h]; exact ⟨h0, h1⟩
  · rw [if_neg h]
    have hkr : 0 < k ^ rho := Real.rpow_pos_of_pos hk rho
    have hnum : 0 < 1 - omega := by linarith
    have hden : 0 < omega * k ^ rho + (1 - omega) := by nlinarith
    refine ⟨div_pos hnum hden, ?_⟩
    rw [div_lt_one hden]
    nlinarith

/-- Witness for C6 at `k = 1`, `rho = 1`, `omega = 1/2`. -/
theorem predicted_labor_share_in_unit_interval_witness :
    0 < predicted_labor_share 1 1 (1/2) ∧ predicted_labor_share 1 1 (1/2) < 1 :=
  predicted_labor_share_in_unit_interval 1 1 (1/2) (by norm_num) (by norm_num) (by norm_num)

/-- The country code of the source's own test run. -/
def korCode : String := "KOR"

/-- A country code absent from the concrete test panel. -/
def usaCode : String := "USA"

/-- A small concrete panel used to instantiate the panel-indexed theorems:
one observation for country `KOR` in 1970 and nothing else. -/
def testPanel : Panel := fun ctry year =>
  if ctry = korCode ∧ year = 1970 then some ⟨1, 1, 2, 1/2⟩ else none

/-- Claim C7: whenever the panel has an observation for the country at the
start date, `_initial_condition` returns
`initial_capital / (technology · initial_labor)` with the technology implied
by the observation's `rkna`, `emp`, `rgdpna` values. -/
theorem initial_condition_matches_spec (panel : Panel) (ctry : String)
    (start : Nat) (rho omega : ℝ) (o : Obs) (h : panel ctry start = some o) :
    initial_condition panel ctry start rho omega =
      some (o.rkna / (ces_technology o.rkna o.emp o.rgdpna rho omega * o.emp)) := by
  unfold initial_condition
  rw [h]
  rfl

/-- Witness for C7 on the concrete panel at `KOR`, 1970. -/
theorem initial_condition_matches_spec_witness :
    initial_condition testPanel korCode 1970 1 (1/2) =
      some ((1 : ℝ) / (ces_technology 1 1 2 1 (1/2) * 1)) :=
  initial_condition_matches_spec testPanel korCode 1970 1 (1/2) ⟨1, 1, 2, 1/2⟩
    (by simp [testPanel, korCode, usaCode])

/-- Claim C9: when the panel has no observation for the country at the start
date, `_initial_condition` fails with the propagated lookup failure (`none`),
and so does every `objective` evaluation built on it, whatever the
integrator, time grid and parameters; no default value is substituted. -/
theorem missing_observation_fails (panel : Panel) (ctry : String) (start : Nat)
    (rho omega : ℝ) (integ : ℝ → List ℝ) (grid : List Nat) (p : ParameterVector)
    (h : panel ctry start = none) :
    initial_condition panel ctry start rho omega = none ∧
    objective_model panel integ ctry start grid p = none := by
  have h1 : ∀ r w : ℝ, initial_condition panel ctry start r w = none := by
    intro r w; unfold initial_condition; rw [h]; rfl
  refine ⟨h1 rho omega, ?_⟩
  unfold objective_model
  rw [h1 p.rho p.omega]
  rfl

/-- Witness for C9: the concrete panel has no `USA` observation. -/
theorem missing_observation_fails_witness :
    initial_condition testPanel usaCode 1970 1 (1/2) = none ∧
    objective_model testPanel (fun k0 => [k0]) usaCode 1970 [1970]
      ⟨2/100, 2/100, 1/2, 4/100, 15/100, 5/100, 1/2⟩ = none :=
  missing_observation_fails testPanel usaCode 1970 1 (1/2) (fun k0 => [k0]) [1970]
    ⟨2/100, 2/100, 1/2, 4/100, 15/100, 5/100, 1/2⟩ (by simp [testPanel, korCode, usaCode])

/-- Claim C10: on strictly positive data with `omega ∈ (0,1)`, both possible
bases of the outer fractional power in `_ces_technology` are strictly
positive (so no fractional power of a negative base is ever taken), the
returned technology is strictly positive, and `_initial_condition` returns a
strictly positive capital-per-effective-worker whenever the panel observation
at the start date has strictly positive `rkna`, `emp`, `rgdpna`. -/
theorem ces_technology_well_defined (c l y rho omega : ℝ) (hc : 0 < c)
    (hl : 0 < l) (hy : 0 < y) (h0 : 0 < omega) (h1 : omega < 1)
    (panel : Panel) (ctry : String) (start : Nat) (o : Obs)
    (hobs : panel ctry start = some o) (hr : 0 < o.rkna) (he : 0 < o.emp)
    (hg : 0 < o.rgdpna) :
    0 < (y / l) / ((c / l) ^ omega) ∧
    0 < (1 / (1 - omega)) * (y / l) ^ rho + (omega / (1 - omega)) * (c / l) ^ rho ∧
    0 < ces_technology c l y rho omega ∧
    ∃ v, initial_condition panel ctry start rho omega = some v ∧ 0 < v := by
  have hyl : 0 < y / l := div_pos hy hl
  have hcl : 0 < c / l := div_pos hc hl
  have h1w : 0 < 1 - omega := by linarith
  refine ⟨div_pos hyl (Real.rpow_pos_of_pos hcl omega), ?_, ?_, ?_⟩
  · have ht1 : 0 < (1 / (1 - omega)) * (y / l) ^ rho :=
      mul_pos (by positivity) (Real.rpow_pos_of_pos hyl rho)
    have ht2 : 0 < (omega / (1 - omega)) * (c / l) ^ rho :=
      mul_pos (by positivity) (Real.rpow_pos_of_pos hcl rho)
    linarith
  · exact ces_technology_pos_aux c l y rho omega hc hl hy h0 h1
  · refine ⟨o.rkna / (ces_technology o.rkna o.emp o.rgdpna rho omega * o.emp),
      ?_, ?_⟩
    · unfold initial_condition
      rw [hobs]
      rfl
    · exact div_pos hr
        (mul_pos (ces_technology_pos_aux _ _ _ rho omega hr he hg h0 h1) he)

/-- Witness for C10 at `c = l = 1`, `y = 2`, `rho = 1`, `omega = 1/2`, with
the concrete panel's `KOR` observation. -/
theorem ces_technology_well_defined_witness :
    0 < ((2 : ℝ) / 1) / (((1 : ℝ) / 1) ^ ((1 : ℝ)/2)) ∧
    0 < (1 / (1 - (1 : ℝ)/2)) * ((2 : ℝ) / 1) ^ (1 : ℝ) +
      (((1 : ℝ)/2) / (1 - (1 : ℝ)/2)) * ((1 : ℝ) / 1) ^ (1 : ℝ) ∧
    0 < ces_technology 1 1 2 1 (1/2) ∧
    ∃ v, initial_condition testPanel korCode 1970 1 (1/2) = some v ∧ 0 < v :=
  ces_technology_well_defined 1 1 2 1 (1/2) (by norm_num) (by norm_num)
    (by norm_num) (by norm_num) (by norm_num) testPanel korCode 1970 ⟨1, 1, 2, 1/2⟩
    (by simp [testPanel, korCode, usaCode]) (by norm_num) (by norm_num) (by norm_num)

/-- Claim C8 evaluation: `_individual_ll` with `sigma = 0` does not raise; the
scipy normal density degenerates (NaN, modeled as `none`) and the NaN
propagates silently through the log. -/
theorem individual_ll_sigma_zero_nan :
    individual_ll 1 (1/2) 1 0 (1/2) = none := by
  unfold individual_ll norm_pdf_checked
  norm_num

/-- Claim C3: for `sigma > 0`, the likelihood aggregation of `objective`
returns the negative of the sum over periods of the log of the Gaussian
(mean 0, standard deviation `sigma`) density at the residual
`l_t − _predicted_labor_share(k_t, rho, omega)`. -/
theorem objective_is_neg_sum_log_gaussian (p : ParameterVector) (ks ls : List ℝ)
    (hs : 0 < p.sigma) :
    objective_of_traj p ks ls =
      some (-(((ks.zip ls).map (fun pt =>
        Real.log (gaussian_density p.sigma
          (pt.2 - predicted_labor_share pt.1 p.rho p.omega)))).sum)) := by
  unfold objective_of_traj
  rw [if_pos hs]
  have hfun : ∀ a b : ℝ, individual_ll_val a b p.rho p.sigma p.omega =
      Real.log (gaussian_density p.sigma
        (b - predicted_labor_share a p.rho p.omega)) := by
    intro a b
    unfold individual_ll_val normPdf gaussian_density residual
    rw [div_eq_mul_inv, one_div, mul_comm]
  simp only [hfun]

/-- Witness for C3 at a concrete parameter vector and one-period data. -/
theorem objective_is_neg_sum_log_gaussian_witness :
    objective_of_traj ⟨2/100, 2/100, 1/2, 4/100, 15/100, 5/100, 1/2⟩ [1] [1/2] =
      some (-((([(1 : ℝ)].zip [(1 : ℝ)/2]).map (fun pt =>
        Real.log (gaussian_density (5/100)
          (pt.2 - predicted_labor_share pt.1 (15/100) (1/2))))).sum)) :=
  objective_is_neg_sum_log_gaussian ⟨2/100, 2/100, 1/2, 4/100, 15/100, 5/100, 1/2⟩
    [1] [1/2] (by norm_num)

/-- Claim C1 evaluation: the round-trip fails on the `|rho| >= EPS` branch.
At `capital = 1`, `labor = 1`, `output_level = 2`, `rho = 1`, `omega = 1/2`,
the implied technology `A` satisfies
`A * labor * _ces_output(capital / (A * labor), rho, omega) = 3`, not the
original `output_level = 2`: the source's second branch adds
`(omega/(1-omega)) * capital_labor**rho` where inverting the CES relation
requires subtracting it. -/
theorem ces_technology_roundtrip_fails :
    ces_technology 1 1 2 1 (1/2) * 1 *
      ces_output (1 / (ces_technology 1 1 2 1 (1/2) * 1)) 1 (1/2) = 3 ∧
    ces_technology 1 1 2 1 (1/2) * 1 *
      ces_output (1 / (ces_technology 1 1 2 1 (1/2) * 1)) 1 (1/2) ≠ 2 := by
  have habs : ¬ |(1 : ℝ)| < EPS := by
    rw [abs_one]; norm_num [EPS]
  have htech : ces_technology 1 1 2 1 (1/2) = 5 := by
    simp only [ces_technology]
    rw [if_neg habs]
    norm_num [Real.rpow_one]
  rw [htech]
  have hout : ces_output (1 / ((5 : ℝ) * 1)) 1 (1/2) = 3/5 := by
    simp only [ces_output]
    rw [if_neg habs]
    norm_num [Real.rpow_one]
  rw [hout]
  norm_num

/-- Claim C4: for every `k > 0` and `omega ∈ (0,1)` and every `rho` (the two
functions always take the same branch, and `|rho| ≥ EPS` forces `rho ≠ 0`),
`_ces_marginal_product_capital(k, rho, omega)` is the derivative of
`_ces_output(·, rho, omega)` at `k`. -/
theorem ces_mpk_is_deriv_of_output (k rho omega : ℝ) (hk : 0 < k)
    (h0 : 0 < omega) (h1 : omega < 1) :
    HasDerivAt (fun x => ces_output x rho omega)
      (ces_marginal_product_capital k rho omega) k := by
  by_cases h : |rho| < EPS
  · simp only [ces_output, ces_marginal_product_capital, if_pos h]
    exact Real.hasDerivAt_rpow_const (Or.inl hk.ne')
  · simp only [ces_output, ces_marginal_product_capital, if_neg h]
    have hrho : rho ≠ 0 := by
      intro h'
      exact h (by rw [h', abs_zero]; norm_num [EPS])
    have hkr : 0 < k ^ rho := Real.rpow_pos_of_pos hk rho
    have hbase : 0 < omega * k ^ rho + (1 - omega) := by nlinarith
    have hinner : HasDerivAt (fun x : ℝ => omega * x ^ rho + (1 - omega))
        (omega * (rho * k ^ (rho - 1))) k :=
      (HasDerivAt.const_mul omega
        (Real.hasDerivAt_rpow_const (Or.inl hk.ne'))).add_const (1 - omega)
    have houter : HasDerivAt
        (fun x : ℝ => (omega * x ^ rho + (1 - omega)) ^ (1/rho))
        (omega * (rho * k ^ (rho - 1)) * (1/rho) *
          (omega * k ^ rho + (1 - omega)) ^ (1/rho - 1)) k :=
      hinner.rpow_const (Or.inl hbase.ne')
    have hexp : (1 - rho) / rho = 1/rho - 1 := by
      rw [sub_div, div_self hrho]
    rw [hexp]
    convert houter using 1
    field_simp
    ring

/-- Witness for C4 at `k = 1`, `rho = 1`, `omega = 1/2`. -/
theorem ces_mpk_is_deriv_of_output_witness :
    HasDerivAt (fun x => ces_output x 1 (1/2))
      (ces_marginal_product_capital 1 1 (1/2)) 1 :=
  ces_mpk_is_deriv_of_output 1 1 (1/2) (by norm_num) (by norm_num) (by norm_num)

end

end Sandbox
